import Mathlib

/-!
Shallow embedding of the py_ddo binding (src/py_ddo/src/lib.rs), the glue
layer between a Python-defined optimization model and the ddo branch-and-bound
engine. The binding delegates state, problem, relaxation and ranking
operations to foreign (Python) objects through pyo3 and wires the four
sequential solver configurations.

Foreign calls are modelled by their outcomes: a pyo3 call_method returns
PyResult<PyObject> (here PyResult PyObj, with PyObj an abstract type of
Python objects), pyo3 extraction returns PyResult<T> (here a function
PyObj → PyResult T), and a Rust .unwrap() on a raised result panics (here
RustOutcome.panic). The components of the ddo engine itself (solvers,
fringes, cutoffs, width heuristics) are not part of this crate; where a
claim depends on their behaviour, a definition explicitly marked
"Modelled from the spec:" captures what the specification says about them,
while everything else is translated directly from lib.rs.
-/

namespace PyDdo

/-- Outcome of a fallible foreign (Python) operation, mirroring pyo3's
PyResult: either a Python exception was raised or a value was produced. -/
inductive PyResult (α : Type) where
  | raised : PyResult α
  | ok : α → PyResult α
  deriving Repr, DecidableEq

/-- Outcome of a Rust computation that may panic (a .unwrap() on a raised
PyResult aborts the process instead of returning an error value). -/
inductive RustOutcome (α : Type) where
  | panic : RustOutcome α
  | ret : α → RustOutcome α
  deriving Repr, DecidableEq

/-- isize::MAX on a 64-bit target: the maximum representable signed integer. -/
def isizeMAX : Int := 2 ^ 63 - 1

/-- ddo's Variable(usize) newtype; id is the wrapped index (Variable.id()). -/
structure Variable where
  id : Nat
  deriving Repr, DecidableEq

/-- ddo's Decision: a (variable, value) pair. The source field name is
"variable", a keyword in Lean, hence "var". -/
structure Decision where
  var : Variable
  value : Int
  deriving Repr, DecidableEq

/-! PyProblem: the Problem implementation forwarding to a foreign object.
Each operation is a function of the outcome of the foreign method call
(argument call, standing for self.obj.call_method(gil, name, args, None))
and of pyo3 extraction on the returned object (argument extract). Every
.unwrap() in the source becomes a match sending raised to panic. -/

/-- PyProblem::nb_variables: call_method("nb_variables").unwrap() then
extract::<usize>().unwrap(). -/
def PyProblem.nb_variables {PyObj : Type} (call : PyResult PyObj)
    (extract : PyObj → PyResult Nat) : RustOutcome Nat :=
  match call with
  | .raised => .panic
  | .ok res =>
    match extract res with
    | .raised => .panic
    | .ok n => .ret n

/-- PyProblem::initial_state: call_method("initial_state").unwrap(), the
returned object wrapped as a PyState with no extraction. -/
def PyProblem.initial_state {PyObj : Type} (call : PyResult PyObj) :
    RustOutcome PyObj :=
  match call with
  | .raised => .panic
  | .ok res => .ret res

/-- PyProblem::initial_value: call_method("initial_value").unwrap() then
extract::<isize>().unwrap(). -/
def PyProblem.initial_value {PyObj : Type} (call : PyResult PyObj)
    (extract : PyObj → PyResult Int) : RustOutcome Int :=
  match call with
  | .raised => .panic
  | .ok res =>
    match extract res with
    | .raised => .panic
    | .ok v => .ret v

/-- PyProblem::transition: call_method("transition", (state, var, value))
.unwrap(), the returned object wrapped as a PyState with no extraction. -/
def PyProblem.transition {PyObj : Type} (call : PyResult PyObj) :
    RustOutcome PyObj :=
  match call with
  | .raised => .panic
  | .ok res => .ret res

/-- PyProblem::transition_cost: call_method("transition_cost", ...).unwrap()
then extract::<isize>().unwrap(). -/
def PyProblem.transition_cost {PyObj : Type} (call : PyResult PyObj)
    (extract : PyObj → PyResult Int) : RustOutcome Int :=
  match call with
  | .raised => .panic
  | .ok res =>
    match extract res with
    | .raised => .panic
    | .ok v => .ret v

/-- PyProblem::next_variable: call_method("next_variable", (depth, layer))
.unwrap(); if the result is Python None yield None, otherwise
extract::<usize>().unwrap() wrapped in Variable. -/
def PyProblem.next_variable {PyObj : Type} (call : PyResult PyObj)
    (is_none : PyObj → Bool) (extract : PyObj → PyResult Nat) :
    RustOutcome (Option Variable) :=
  match call with
  | .raised => .panic
  | .ok res =>
    if is_none res then .ret none
    else
      match extract res with
      | .raised => .panic
      | .ok var_id => .ret (some ⟨var_id⟩)

/-- PyProblem::for_each_in_domain: call_method("domain", (var, state))
.unwrap() then extract::<Vec<isize>>().unwrap(), then the callback is
applied to Decision { variable: var, value: val } for each val in the
domain; the returned list records the applied decisions in order. -/
def PyProblem.for_each_in_domain {PyObj : Type} (var : Variable)
    (call : PyResult PyObj) (extract : PyObj → PyResult (List Int)) :
    RustOutcome (List Decision) :=
  match call with
  | .raised => .panic
  | .ok res =>
    match extract res with
    | .raised => .panic
    | .ok dom => .ret (dom.map (fun val => { var := var, value := val }))

/-! PyRelax: the Relaxation implementation forwarding to a foreign object. -/

/-- PyRelax::merge: call_method("merge", (states,)).unwrap(), the returned
object wrapped as a PyState with no extraction. -/
def PyRelax.merge {PyObj : Type} (call : PyResult PyObj) :
    RustOutcome PyObj :=
  match call with
  | .raised => .panic
  | .ok res => .ret res

/-- PyRelax::relax: call_method("relax", (dict,)).unwrap() then
extract().unwrap() to isize. -/
def PyRelax.relax {PyObj : Type} (call : PyResult PyObj)
    (extract : PyObj → PyResult Int) : RustOutcome Int :=
  match call with
  | .raised => .panic
  | .ok res =>
    match extract res with
    | .raised => .panic
    | .ok v => .ret v

/-- PyRelax::fast_upper_bound: call_method("fast_upper_bound", (state,));
if the call succeeded, extract().unwrap() (a failed extraction still
panics); if the call itself raised, return isize::MAX instead. -/
def PyRelax.fast_upper_bound {PyObj : Type} (call : PyResult PyObj)
    (extract : PyObj → PyResult Int) : RustOutcome Int :=
  match call with
  | .ok res =>
    match extract res with
    | .raised => .panic
    | .ok v => .ret v
  | .raised => .ret isizeMAX

/-! PyRanking: the StateRanking implementation forwarding to a foreign
object. -/

/-- PyRanking::compare: call_method("compare", (a, b)).unwrap() then
extract::<isize>().unwrap(), then 0 maps to Equal, negative to Less,
positive to Greater. -/
def PyRanking.compare {PyObj : Type} (call : PyResult PyObj)
    (extract : PyObj → PyResult Int) : RustOutcome Ordering :=
  match call with
  | .raised => .panic
  | .ok res =>
    match extract res with
    | .raised => .panic
    | .ok v => .ret (if v = 0 then .eq else if v < 0 then .lt else .gt)

/-! PyState: equality and hashing delegated to the foreign state object. -/

/-- PartialEq::eq for PyState: call_method("__eq__", (other,)).unwrap()
then cast_as::<PyBool>().unwrap(), yielding is_true() of the result. The
cast argument models the downcast: raised when the returned object is not
a boolean. -/
def PyState.eq {PyObj : Type} (call : PyResult PyObj)
    (cast_bool : PyObj → PyResult Bool) : RustOutcome Bool :=
  match call with
  | .raised => .panic
  | .ok res =>
    match cast_bool res with
    | .raised => .panic
    | .ok b => .ret b

/-- Hash::hash for PyState: call_method("__hash__", ()).unwrap() then
extract::<isize>().unwrap(); the returned integer is written to the hasher
via write_isize, so the outcome carries exactly that integer. -/
def PyState.hash {PyObj : Type} (call : PyResult PyObj)
    (extract : PyObj → PyResult Int) : RustOutcome Int :=
  match call with
  | .raised => .panic
  | .ok res =>
    match extract res with
    | .raised => .panic
    | .ok v => .ret v

/-! Solver configuration: the helper functions of lib.rs that maximize uses
to assemble the engine (solver, cutoff, fringe, max_width). The concrete
engine types they select live in the ddo crate, outside this source; each
is represented by a constructor naming it, holding the data the source
passes to it. -/

/-- The four sequential ddo solver types the binding can instantiate. -/
inductive SolverChoice where
  | seqBarrierSolverLel
  | seqNoBarrierSolverLel
  | seqBarrierSolverFc
  | seqNoBarrierSolverFc
  deriving Repr, DecidableEq

/-- A boxed solver as assembled by fn solver: which of the four engine
types was chosen, together with the components it was constructed over. -/
structure SolverBox (P R K W C F : Type) where
  choice : SolverChoice
  problem : P
  relaxation : R
  ranking : K
  width_heu : W
  cutoff : C
  fringe : F
  deriving Repr, DecidableEq

/-- fn solver: dispatch on (lel, use_barrier) to one of the four solver
configurations, each receiving the same problem, relaxation, ranking,
width heuristic, cutoff and fringe. -/
def solver {P R K W C F : Type} (problem : P) (relaxation : R) (ranking : K)
    (width_heu : W) (cutoff : C) (fringe : F) (lel use_barrier : Bool) :
    SolverBox P R K W C F :=
  match lel, use_barrier with
  | true, true =>
    { choice := .seqBarrierSolverLel, problem := problem,
      relaxation := relaxation, ranking := ranking, width_heu := width_heu,
      cutoff := cutoff, fringe := fringe }
  | true, false =>
    { choice := .seqNoBarrierSolverLel, problem := problem,
      relaxation := relaxation, ranking := ranking, width_heu := width_heu,
      cutoff := cutoff, fringe := fringe }
  | false, true =>
    { choice := .seqBarrierSolverFc, problem := problem,
      relaxation := relaxation, ranking := ranking, width_heu := width_heu,
      cutoff := cutoff, fringe := fringe }
  | false, false =>
    { choice := .seqNoBarrierSolverFc, problem := problem,
      relaxation := relaxation, ranking := ranking, width_heu := width_heu,
      cutoff := cutoff, fringe := fringe }

/-- Rust std::time::Duration: whole seconds plus a nanosecond part. -/
structure Duration where
  secs : Nat
  nanos : Nat
  deriving Repr, DecidableEq

/-- Duration::from_secs. -/
def Duration.from_secs (t : Nat) : Duration := ⟨t, 0⟩

/-- The cutoff assembled by fn cutoff: ddo's TimeBudget (with its budget)
or NoCutoff. -/
inductive CutoffBox where
  | timeBudget : Duration → CutoffBox
  | noCutoff : CutoffBox
  deriving Repr, DecidableEq

/-- fn cutoff: Some(timeout) yields TimeBudget::new(Duration::from_secs(
timeout)), None yields NoCutoff. -/
def cutoff (timeout : Option Nat) : CutoffBox :=
  match timeout with
  | some timeout => .timeBudget (Duration.from_secs timeout)
  | none => .noCutoff

/-- Modelled from the spec: the Cutoff predicate polled by the engine
(the TimeBudget and NoCutoff implementations live in the ddo crate, not in
this source). NoCutoff never fires; TimeBudget fires once the elapsed
wall-clock time reaches the budget. -/
def CutoffBox.must_stop : CutoffBox → Duration → Bool
  | .noCutoff, _ => false
  | .timeBudget budget, elapsed =>
    decide (budget.secs * 1000000000 + budget.nanos ≤
            elapsed.secs * 1000000000 + elapsed.nanos)

/-- ddo's MaxUB sub-problem ordering, holding the state ranking it was
built from (MaxUB::new(ranking)). -/
structure MaxUB (K : Type) where
  ranking : K
  deriving Repr, DecidableEq

/-- MaxUB::new. -/
def MaxUB.new {K : Type} (ranking : K) : MaxUB K := ⟨ranking⟩

/-- The fringe assembled by fn fringe: ddo's NoDupFringe (deduplicating)
or SimpleFringe (plain), each holding the MaxUB order it was built with. -/
inductive FringeBox (K : Type) where
  | noDupFringe (order : MaxUB K)
  | simpleFringe (order : MaxUB K)
  deriving Repr, DecidableEq

/-- fn fringe: dedup selects NoDupFringe::new(MaxUB::new(ranking)),
otherwise SimpleFringe::new(MaxUB::new(ranking)). -/
def fringe {K : Type} (dedup : Bool) (ranking : K) : FringeBox K :=
  if dedup then .noDupFringe (MaxUB.new ranking)
  else .simpleFringe (MaxUB.new ranking)

/-- The MaxUB order a fringe was built with, whichever variant it is. -/
def FringeBox.order {K : Type} : FringeBox K → MaxUB K
  | .noDupFringe o => o
  | .simpleFringe o => o

/-- ddo's SubProblem as far as fringe ordering is concerned: root state,
accumulated value, current upper bound. -/
structure SubProblem (σ : Type) where
  state : σ
  value : Int
  ub : Int

/-- Rust Ord::cmp on isize: less, equal or greater by the usual order. -/
def cmpInt (a b : Int) : Ordering :=
  if a < b then .lt else if a = b then .eq else .gt

/-- Modelled from the spec: the MaxUB priority used to order the fringe —
compare the upper bounds first and break ties with the state ranking
(MaxUB's comparison function lives in the ddo crate, not in this source).
The ranking is a comparison function on states, as PyRanking::compare
provides. -/
def MaxUB.compare {σ : Type} (m : MaxUB (σ → σ → Ordering))
    (a b : SubProblem σ) : Ordering :=
  (cmpInt a.ub b.ub).then (m.ranking a.state b.state)

/-- The width heuristic assembled by fn max_width: ddo's FixedWidth(w) or
NbUnassignedWitdh(n) (sic, the ddo identifier). -/
inductive WidthHeuristicBox where
  | fixedWidth (w : Nat)
  | nbUnassignedWitdh (n : Nat)
  deriving Repr, DecidableEq

/-- fn max_width: Some(w) yields FixedWidth(w); None yields
NbUnassignedWitdh(n) where n is the problem's number of variables. -/
def max_width (n : Nat) (w : Option Nat) : WidthHeuristicBox :=
  match w with
  | some w => .fixedWidth w
  | none => .nbUnassignedWitdh n

/-- Modelled from the spec: applying a width heuristic to a layer of a
sub-problem whose path has already assigned nbAssigned of the variables
(the FixedWidth and NbUnassignedWitdh implementations live in the ddo
crate, not in this source). FixedWidth(w) yields the constant w for every
layer; NbUnassignedWitdh(n) yields the number of still-unassigned
variables. -/
def WidthHeuristicBox.max_width : WidthHeuristicBox → Nat → Nat
  | .fixedWidth w, _ => w
  | .nbUnassignedWitdh n, nbAssigned => n - nbAssigned

/-- The solver configuration assembled by the body of maximize, lines
58-75 of lib.rs: the helpers applied to the user-supplied knobs, with
nbVars standing for the value returned by problem.nb_variables(). -/
def maximizeConfig {P R K : Type} (pb : P) (relax : R) (ranking : K)
    (lel use_barrier dedup : Bool) (width : Option Nat)
    (timeout : Option Nat) (nbVars : Nat) :
    SolverBox P R K WidthHeuristicBox CutoffBox (FringeBox K) :=
  solver pb relax ranking (max_width nbVars width) (cutoff timeout)
    (fringe dedup ranking) lel use_barrier

/-! The result side of maximize. -/

/-- ddo's Completion: the terminal search outcome. -/
structure Completion where
  is_exact : Bool
  best_value : Option Int
  deriving Repr, DecidableEq

/-- The Solution pyclass returned by maximize. -/
structure Solution where
  aborted : Bool
  gap : Float
  duration : Float
  objective : Option Int
  upper_bound : Int
  lower_bound : Int
  assignment : Option (List Int)
  deriving Repr

/-- What maximize reads back from the solver after the search: the
Completion of Solver::maximize, and the gap, best_solution and bound
queries. These are produced by the ddo engine, outside this source, so
they are inputs of the embedded maximize. -/
structure SolverResult where
  completion : Completion
  gap : Float
  best_solution : Option (List Decision)
  best_upper_bound : Int
  best_lower_bound : Int
  deriving Repr

/-- The key ordering used by decisions.sort_unstable_by_key(d.variable.id). -/
def byVarId (a b : Decision) : Prop := a.var.id ≤ b.var.id

instance : DecidableRel byVarId := fun a b => Nat.decLe a.var.id b.var.id

instance : IsTotal Decision byVarId := ⟨fun a b => Nat.le_total a.var.id b.var.id⟩

instance : IsTrans Decision byVarId := ⟨fun _ _ _ h h' => Nat.le_trans h h'⟩

/-- decisions.sort_unstable_by_key(|d| d.variable.id()): an unstable sort
guarantees exactly a permutation of the input sorted by the key, which
insertion sort by the key realizes. -/
def sortByVarId (decisions : List Decision) : List Decision :=
  List.insertionSort byVarId decisions

/-- The tail of maximize, lines 77-95 of lib.rs: package the solver's
outcome into a Solution. The aborted flag negates is_exact, the objective
is the Completion's best_value, and the assignment maps the best solution
(when one exists) to its decision values sorted by increasing variable id.
The elapsed duration is measured outside the embedding and passed in. -/
def maximize (s : SolverResult) (duration : Float) : Solution :=
  let assignment := s.best_solution.map (fun decisions =>
    (sortByVarId decisions).map (fun d => d.value))
  { aborted := !s.completion.is_exact,
    objective := s.completion.best_value,
    upper_bound := s.best_upper_bound,
    lower_bound := s.best_lower_bound,
    assignment := assignment,
    gap := s.gap,
    duration := duration }

/-! Claims. -/

/-- C1: every call to maximize dispatches on the pair (lel, use_barrier) to
exactly one of the four solver configurations — (true, true) the
Lel-with-barrier solver, (true, false) the Lel-without-barrier solver,
(false, true) the Fc-with-barrier solver, (false, false) the
Fc-without-barrier solver — and every one of the four is constructed over
the same problem, relaxation, ranking, width heuristic, cutoff and
fringe. -/
theorem c1_solver_dispatch {P R K W C F : Type} (pb : P) (rx : R) (rk : K)
    (w : W) (c : C) (f : F) :
    (solver pb rx rk w c f true true).choice = .seqBarrierSolverLel ∧
    (solver pb rx rk w c f true false).choice = .seqNoBarrierSolverLel ∧
    (solver pb rx rk w c f false true).choice = .seqBarrierSolverFc ∧
    (solver pb rx rk w c f false false).choice = .seqNoBarrierSolverFc ∧
    (∀ lel use_barrier : Bool,
      (solver pb rx rk w c f lel use_barrier).problem = pb ∧
      (solver pb rx rk w c f lel use_barrier).relaxation = rx ∧
      (solver pb rx rk w c f lel use_barrier).ranking = rk ∧
      (solver pb rx rk w c f lel use_barrier).width_heu = w ∧
      (solver pb rx rk w c f lel use_barrier).cutoff = c ∧
      (solver pb rx rk w c f lel use_barrier).fringe = f) := by
  refine ⟨rfl, rfl, rfl, rfl, ?_⟩
  intro lel use_barrier
  cases lel <;> cases use_barrier <;>
    exact ⟨rfl, rfl, rfl, rfl, rfl, rfl⟩

/-- C2, counterexample: the claim that every error raised while evaluating
a Problem, Relaxation or StateRanking operation is fatal with no local
recovery is false — when the foreign fast_upper_bound call raises, PyRelax
recovers locally and returns isize::MAX instead of aborting. -/
theorem c2_fub_recovers_counterexample :
    PyRelax.fast_upper_bound (.raised : PyResult Unit) (fun _ => .raised) =
      .ret isizeMAX ∧
    PyRelax.fast_upper_bound (.raised : PyResult Unit) (fun _ => .raised) ≠
      .panic := by
  exact ⟨rfl, by simp [PyRelax.fast_upper_bound]⟩

/-- C2, amended: every error raised while evaluating a Problem, Relaxation
or StateRanking operation — whether the foreign call raises or the
extraction of its result fails — aborts the search at once as a panic
propagated to the caller, with no local recovery, with the single
exception of a raised fast_upper_bound call, which is recovered locally to
isize::MAX (a failed extraction of a successful fast_upper_bound result is
still fatal). -/
theorem c2_errors_are_fatal {PyObj : Type} (o : PyObj)
    (eN : PyObj → PyResult Nat) (eI : PyObj → PyResult Int)
    (eV : PyObj → PyResult (List Int)) (is_none : PyObj → Bool)
    (var : Variable) :
    PyProblem.nb_variables .raised eN = .panic ∧
    PyProblem.nb_variables (.ok o) (fun _ => .raised) = .panic ∧
    PyProblem.initial_state (.raised : PyResult PyObj) = .panic ∧
    PyProblem.initial_value .raised eI = .panic ∧
    PyProblem.initial_value (.ok o) (fun _ => .raised) = .panic ∧
    PyProblem.transition (.raised : PyResult PyObj) = .panic ∧
    PyProblem.transition_cost .raised eI = .panic ∧
    PyProblem.transition_cost (.ok o) (fun _ => .raised) = .panic ∧
    PyProblem.next_variable .raised is_none eN = .panic ∧
    PyProblem.next_variable (.ok o) (fun _ => false) (fun _ => .raised) =
      .panic ∧
    PyProblem.for_each_in_domain var .raised eV = .panic ∧
    PyProblem.for_each_in_domain var (.ok o) (fun _ => .raised) = .panic ∧
    PyRelax.merge (.raised : PyResult PyObj) = .panic ∧
    PyRelax.relax .raised eI = .panic ∧
    PyRelax.relax (.ok o) (fun _ => .raised) = .panic ∧
    PyRelax.fast_upper_bound (.ok o) (fun _ => .raised) = .panic ∧
    PyRelax.fast_upper_bound .raised eI = .ret isizeMAX ∧
    PyRanking.compare .raised eI = .panic ∧
    PyRanking.compare (.ok o) (fun _ => .raised) = .panic := by
  exact ⟨rfl, rfl, rfl, rfl, rfl, rfl, rfl, rfl, rfl, rfl, rfl, rfl, rfl,
    rfl, rfl, rfl, rfl, rfl, rfl⟩

/-- C3: when the foreign fast_upper_bound call does not succeed, PyRelax's
fast_upper_bound returns isize::MAX, the maximum representable signed
integer; when the call succeeds and produces an integer, it returns the
collaborator's integer result. -/
theorem c3_fast_upper_bound_default {PyObj : Type} (o : PyObj)
    (extract : PyObj → PyResult Int) (v : Int) (h : extract o = .ok v) :
    PyRelax.fast_upper_bound .raised extract = .ret isizeMAX ∧
    PyRelax.fast_upper_bound (.ok o) extract = .ret v ∧
    isizeMAX = 2 ^ 63 - 1 := by
  refine ⟨rfl, ?_, rfl⟩
  simp [PyRelax.fast_upper_bound, h]

/-- C3, witness: a concrete collaborator returning 42 on one state. -/
theorem c3_fast_upper_bound_default_witness :
    PyRelax.fast_upper_bound (.raised : PyResult Unit) (fun _ => .ok 42) =
      .ret isizeMAX ∧
    PyRelax.fast_upper_bound (.ok () : PyResult Unit) (fun _ => .ok 42) =
      .ret 42 := by
  have h := c3_fast_upper_bound_default () (fun _ => .ok 42) 42 rfl
  exact ⟨h.1, h.2.1⟩

/-- C5: the aborted flag of the returned Solution is the negation of the
Completion's is_exact flag (aborted is true exactly when is_exact is
false), the objective field equals the Completion's best_value, and
cutoff-triggered termination is thereby reported through the flag of an
ordinary Solution value rather than as an error. -/
theorem c5_aborted_flag (s : SolverResult) (d : Float) :
    (maximize s d).aborted = !s.completion.is_exact ∧
    ((maximize s d).aborted = true ↔ s.completion.is_exact = false) ∧
    (maximize s d).objective = s.completion.best_value := by
  refine ⟨rfl, ?_, rfl⟩
  cases h : s.completion.is_exact <;> simp [maximize, h]

/-- C6: dedup true selects the deduplicating NoDupFringe and dedup false
the plain SimpleFringe; both are ordered by the MaxUB priority built from
the supplied ranking, which compares upper bounds first and falls back to
the state ranking exactly on ties. -/
theorem c6_fringe_selection {σ : Type} (ranking : σ → σ → Ordering) :
    (fringe true ranking = .noDupFringe (MaxUB.new ranking)) ∧
    (fringe false ranking = .simpleFringe (MaxUB.new ranking)) ∧
    (∀ dedup : Bool, (fringe dedup ranking).order = MaxUB.new ranking) ∧
    (∀ a b : SubProblem σ, a.ub = b.ub →
      MaxUB.compare (MaxUB.new ranking) a b = ranking a.state b.state) ∧
    (∀ a b : SubProblem σ, a.ub ≠ b.ub →
      MaxUB.compare (MaxUB.new ranking) a b = cmpInt a.ub b.ub) := by
  refine ⟨rfl, rfl, ?_, ?_, ?_⟩
  · intro dedup; cases dedup <;> rfl
  · intro a b h
    simp [MaxUB.compare, MaxUB.new, cmpInt, h, Ordering.then]
  · intro a b h
    rcases lt_or_gt_of_ne h with h' | h' <;>
      simp [MaxUB.compare, MaxUB.new, cmpInt, h', not_lt_of_gt, h,
        Ordering.then]

/-- C6, witness: a concrete ranking on Nat states, with one tied and one
untied pair of sub-problems. -/
theorem c6_fringe_selection_witness :
    fringe true (fun a b : Nat => cmpInt a b) =
      .noDupFringe (MaxUB.new (fun a b : Nat => cmpInt a b)) ∧
    MaxUB.compare (MaxUB.new (fun a b : Nat => cmpInt a b))
      ⟨3, 0, 5⟩ ⟨4, 0, 5⟩ = cmpInt 3 4 ∧
    MaxUB.compare (MaxUB.new (fun a b : Nat => cmpInt a b))
      ⟨3, 0, 7⟩ ⟨4, 0, 5⟩ = cmpInt 7 5 := by
  have h := c6_fringe_selection (fun a b : Nat => cmpInt a b)
  exact ⟨h.1, h.2.2.2.1 ⟨3, 0, 5⟩ ⟨4, 0, 5⟩ rfl,
    h.2.2.2.2 ⟨3, 0, 7⟩ ⟨4, 0, 5⟩ (by decide)⟩

/-- C7: a missing timeout installs NoCutoff, whose polled predicate never
fires for any elapsed time, and a timeout of t installs a TimeBudget whose
wall-clock budget is exactly t seconds (and no extra nanoseconds); the
cutoff assembled by maximize is precisely this one. -/
theorem c7_cutoff_selection :
    (cutoff none = .noCutoff) ∧
    (∀ elapsed : Duration,
      CutoffBox.must_stop (cutoff none) elapsed = false) ∧
    (∀ t : Nat, cutoff (some t) = .timeBudget (Duration.from_secs t)) ∧
    (∀ t : Nat, (Duration.from_secs t).secs = t ∧
      (Duration.from_secs t).nanos = 0) ∧
    (∀ {P R K : Type} (pb : P) (rx : R) (rk : K)
      (lel ub dedup : Bool) (width timeout : Option Nat) (nbVars : Nat),
      (maximizeConfig pb rx rk lel ub dedup width timeout nbVars).cutoff =
        cutoff timeout) := by
  refine ⟨rfl, fun _ => rfl, fun _ => rfl, fun _ => ⟨rfl, rfl⟩, ?_⟩
  intro P R K pb rx rk lel ub dedup width timeout nbVars
  cases lel <;> cases ub <;> rfl

/-- C8: a supplied width w installs FixedWidth(w), which yields the fixed
constant w for every layer; an absent width installs NbUnassignedWitdh
parameterized by the problem's number of variables, which yields the count
of still-unassigned variables (so assigned plus the heuristic's answer
recovers the variable count); the width heuristic assembled by maximize is
precisely this one, fed the problem's nb_variables. -/
theorem c8_width_selection :
    (∀ n w, max_width n (some w) = .fixedWidth w) ∧
    (∀ w nbAssigned,
      WidthHeuristicBox.max_width (.fixedWidth w) nbAssigned = w) ∧
    (∀ n, max_width n none = .nbUnassignedWitdh n) ∧
    (∀ n nbAssigned,
      WidthHeuristicBox.max_width (max_width n none) nbAssigned =
        n - nbAssigned) ∧
    (∀ n nbAssigned, nbAssigned ≤ n →
      nbAssigned +
        WidthHeuristicBox.max_width (max_width n none) nbAssigned = n) ∧
    (∀ {P R K : Type} (pb : P) (rx : R) (rk : K)
      (lel ub dedup : Bool) (width timeout : Option Nat) (nbVars : Nat),
      (maximizeConfig pb rx rk lel ub dedup width timeout nbVars).width_heu
        = max_width nbVars width) := by
  refine ⟨fun _ _ => rfl, fun _ _ => rfl, fun _ => rfl, fun _ _ => rfl,
    ?_, ?_⟩
  · intro n nbAssigned h
    simpa [max_width, WidthHeuristicBox.max_width] using
      Nat.add_sub_cancel' h
  · intro P R K pb rx rk lel ub dedup width timeout nbVars
    cases lel <;> cases ub <;> rfl

/-- C8, witness: a problem with 5 variables, 2 of them assigned. -/
theorem c8_width_selection_witness :
    max_width 5 (some 3) = .fixedWidth 3 ∧
    WidthHeuristicBox.max_width (max_width 5 none) 2 = 3 ∧
    2 + WidthHeuristicBox.max_width (max_width 5 none) 2 = 5 := by
  have h := c8_width_selection
  exact ⟨h.1 5 3, h.2.2.2.1 5 2, h.2.2.2.2.1 5 2 (by decide)⟩

/-- C9: maximize does not validate the width parameter — width = Some(0)
installs FixedWidth(0), whose maximum layer width is 0 for every layer,
which is not a positive integer. -/
theorem c9_zero_width_unchecked (n : Nat) :
    max_width n (some 0) = .fixedWidth 0 ∧
    (∀ nbAssigned,
      WidthHeuristicBox.max_width (max_width n (some 0)) nbAssigned = 0) ∧
    ¬ (0 < WidthHeuristicBox.max_width (max_width n (some 0)) 0) := by
  exact ⟨rfl, fun _ => rfl, by simp [max_width, WidthHeuristicBox.max_width]⟩

/-- Sorting the incumbent's decisions by variable id yields ids exactly
0, 1, ..., n-1 whenever the decision list assigns each of the n variables
once (its ids are a permutation of the range). -/
theorem sortByVarId_ids (ds : List Decision)
    (hperm : (ds.map fun d => d.var.id).Perm (List.range ds.length)) :
    (sortByVarId ds).map (fun d => d.var.id) = List.range ds.length := by
  have hp : (sortByVarId ds).Perm ds := List.perm_insertionSort byVarId ds
  have hpm : ((sortByVarId ds).map fun d => d.var.id).Perm
      (List.range ds.length) := (hp.map _).trans hperm
  have hsorted : List.Sorted (fun x y : Nat => x ≤ y)
      ((sortByVarId ds).map fun d => d.var.id) :=
    List.pairwise_map.mpr (List.sorted_insertionSort byVarId ds)
  exact List.eq_of_perm_of_sorted hpm hsorted (List.sorted_le_range ds.length)

/-- C4: at termination of maximize, if no feasible solution was found then
both the objective and the assignment of the result are None; if a best
solution exists, the assignment lists its decision values sorted by
increasing variable id, so that (when the solution assigns each variable
exactly once) assignment indexed at x is the value assigned to variable x.
The hypothesis links the engine's best_value to its best_solution, as the
spec states (best value None exactly when no feasible solution was ever
found). -/
theorem c4_result_assignment (s : SolverResult) (dur : Float)
    (hcons : s.completion.best_value = none ↔ s.best_solution = none) :
    (s.best_solution = none →
      (maximize s dur).objective = none ∧
      (maximize s dur).assignment = none) ∧
    (∀ ds, s.best_solution = some ds →
      List.Sorted (fun x y : Nat => x ≤ y)
        ((sortByVarId ds).map fun d => d.var.id) ∧
      ((ds.map fun d => d.var.id).Perm (List.range ds.length) →
        ∃ vals, (maximize s dur).assignment = some vals ∧
          vals.length = ds.length ∧
          ∀ d ∈ ds, vals[d.var.id]? = some d.value)) := by
  constructor
  · intro hnone
    constructor
    · simpa [maximize] using hcons.mpr hnone
    · simp [maximize, hnone]
  · intro ds hds
    constructor
    · exact List.pairwise_map.mpr (List.sorted_insertionSort byVarId ds)
    · intro hperm
      refine ⟨(sortByVarId ds).map (fun d => d.value), ?_, ?_, ?_⟩
      · simp [maximize, hds]
      · rw [List.length_map]
        exact (List.perm_insertionSort byVarId ds).length_eq
      · intro d hd
        have hids := sortByVarId_ids ds hperm
        have hmem : d ∈ sortByVarId ds :=
          ((List.perm_insertionSort byVarId ds).mem_iff).mpr hd
        obtain ⟨i, hi, hget⟩ := List.getElem_of_mem hmem
        have hlen : (sortByVarId ds).length = ds.length :=
          (List.perm_insertionSort byVarId ds).length_eq
        have hi' : i < ds.length := hlen ▸ hi
        have h1 : ((sortByVarId ds).map fun d => d.var.id)[i]? =
            some d.var.id := by
          rw [List.getElem?_eq_getElem (by simpa using hi)]
          simp [List.getElem_map, hget]
        have h2 : (List.range ds.length)[i]? = some i := by
          rw [List.getElem?_eq_getElem (by simpa using hi')]
          simp
        have hid : d.var.id = i :=
          Option.some.inj
            (h1.symm.trans ((congrArg (fun l => l[i]?) hids).trans h2))
        rw [hid, List.getElem?_eq_getElem (by simpa using hi)]
        simp [List.getElem_map, hget]

/-- C4, witness: an incumbent assigning value 7 to variable 1 and value 5
to variable 0, reported as assignment [5, 7]. -/
theorem c4_result_assignment_witness :
    ∃ vals,
      (maximize
        { completion := { is_exact := true, best_value := some 12 },
          gap := 0.0,
          best_solution := some [⟨⟨1⟩, 7⟩, ⟨⟨0⟩, 5⟩],
          best_upper_bound := 12, best_lower_bound := 12 } 0.0).assignment =
        some vals ∧
      vals.length = 2 ∧
      ∀ d ∈ [(⟨⟨1⟩, 7⟩ : Decision), ⟨⟨0⟩, 5⟩],
        vals[d.var.id]? = some d.value := by
  have h := c4_result_assignment
    { completion := { is_exact := true, best_value := some 12 },
      gap := 0.0,
      best_solution := some [⟨⟨1⟩, 7⟩, ⟨⟨0⟩, 5⟩],
      best_upper_bound := 12, best_lower_bound := 12 } 0.0 (by simp)
  exact (h.2 [⟨⟨1⟩, 7⟩, ⟨⟨0⟩, 5⟩] rfl).2 (by decide)

/-- C10: PyState equality and hashing are delegated entirely to the
foreign state object — equality holds exactly when the foreign call to
the __eq__ method succeeds with a boolean that is true, hashing writes
exactly the signed integer the foreign __hash__ method returns, and when
__eq__ raises or returns a non-boolean, or __hash__ raises or returns a
non-integer, the operation panics instead of returning an error. -/
theorem c10_state_eq_hash {PyObj : Type} (callEq callHash : PyResult PyObj)
    (cast_bool : PyObj → PyResult Bool) (eh : PyObj → PyResult Int) :
    (PyState.eq callEq cast_bool = .ret true ↔
      ∃ o, callEq = .ok o ∧ cast_bool o = .ok true) ∧
    (∀ (o : PyObj) (b : Bool), callEq = .ok o → cast_bool o = .ok b →
      PyState.eq callEq cast_bool = .ret b) ∧
    (callEq = .raised → PyState.eq callEq cast_bool = .panic) ∧
    (∀ o : PyObj, callEq = .ok o → cast_bool o = .raised →
      PyState.eq callEq cast_bool = .panic) ∧
    (∀ (o : PyObj) (i : Int), callHash = .ok o → eh o = .ok i →
      PyState.hash callHash eh = .ret i) ∧
    (callHash = .raised → PyState.hash callHash eh = .panic) ∧
    (∀ o : PyObj, callHash = .ok o → eh o = .raised →
      PyState.hash callHash eh = .panic) := by
  refine ⟨?_, ?_, ?_, ?_, ?_, ?_, ?_⟩
  · constructor
    · intro h
      cases callEq with
      | raised => simp [PyState.eq] at h
      | ok o =>
        cases hc : cast_bool o with
        | raised => simp [PyState.eq, hc] at h
        | ok b =>
          refine ⟨o, rfl, ?_⟩
          simp only [PyState.eq, hc] at h
          rw [RustOutcome.ret.injEq] at h
          rw [h] at hc
          exact hc
    · rintro ⟨o, rfl, hc⟩
      simp [PyState.eq, hc]
  · intro o b h hc
    subst h
    simp [PyState.eq, hc]
  · intro h
    subst h
    rfl
  · intro o h hc
    subst h
    simp [PyState.eq, hc]
  · intro o i h hc
    subst h
    simp [PyState.hash, hc]
  · intro h
    subst h
    rfl
  · intro o h hc
    subst h
    simp [PyState.hash, hc]

/-- C10, witness: a foreign object whose __eq__ yields True and whose
__hash__ yields 42, and one whose __eq__ call raises. -/
theorem c10_state_eq_hash_witness :
    PyState.eq (.ok () : PyResult Unit) (fun _ => .ok true) = .ret true ∧
    PyState.hash (.ok () : PyResult Unit) (fun _ => .ok 42) = .ret 42 ∧
    PyState.eq (.raised : PyResult Unit) (fun _ => .ok true) = .panic := by
  have h := c10_state_eq_hash (.ok () : PyResult Unit) (.ok ())
    (fun _ => .ok true) (fun _ => .ok 42)
  have h2 := c10_state_eq_hash (.raised : PyResult Unit) .raised
    (fun _ => .ok true) (fun _ => .ok 42)
  exact ⟨h.2.1 () true rfl rfl, h.2.2.2.2.1 () 42 rfl rfl,
    h2.2.2.1 rfl⟩

end PyDdo
